import Mathlib

/-
  Shallow embedding of the apex-legend-detector core:
  detector.py (ApexDetector), tasks.py (process_video_screenshots) and
  worker.py (process_task).  External collaborators (the OpenCV
  primitives, the HTTP client and the Redis store) are modelled at
  their interface boundary, exactly as the spec scopes them; Python
  floats are modelled by exact rationals plus the special values
  inf, -inf and nan where the pipeline can observe them.
-/

/-- A decoded OpenCV image: the rectangular grid of pixel codes
    (`data` is the list of rows; one pixel is abstracted to an `Int`). -/
structure Image where
  data : List (List Int)
deriving DecidableEq, Repr

/-- `image.shape[0]`: the number of rows. -/
def Image.shape0 (im : Image) : Nat := im.data.length

/-- `image.shape[1]`: the number of columns, read off the first row. -/
def Image.shape1 (im : Image) : Nat := (im.data.headD []).length

/-- Rectangularity of a numpy array: every row has the full width. -/
def ImageWF (im : Image) : Prop := ∀ row ∈ im.data, row.length = im.shape1

/-- The three cv2.matchTemplate methods used by calculate_similarity:
    TM_CCOEFF_NORMED, TM_CCORR_NORMED and TM_SQDIFF_NORMED. -/
inductive TMethod where
  | ccoeff
  | ccorr
  | sqdiff
deriving DecidableEq, Repr

/-- The external OpenCV primitives, at the interface boundary:
    `resizeImg im w h` is cv2.resize(im, (w, h)); `cvtGray` is
    cv2.cvtColor(-, COLOR_BGR2GRAY); `matchTemplate m g1 g2` is the
    single score cv2.matchTemplate(g1, g2, m)[0][0]; `imdecode` is
    cv2.imdecode on the downloaded body bytes (none when the bytes do
    not decode to an image). -/
structure Cv2 where
  resizeImg : Image → Nat → Nat → Image
  cvtGray : Image → Image
  matchTemplate : TMethod → Image → Image → ℚ
  imdecode : List Nat → Option Image

/-- A Python float as far as this pipeline observes it: a finite
    rational, one of the two infinities, or nan. -/
inductive PyFloat where
  | finite (q : ℚ)
  | pinf
  | ninf
  | nan
deriving DecidableEq, Repr

/-- Python `a >= x` for a finite left operand `a`: comparisons against
    nan are always false, every finite value is >= -inf and none is
    >= inf. -/
def pyGe (a : ℚ) (x : PyFloat) : Bool :=
  match x with
  | .finite q => decide (q ≤ a)
  | .pinf => false
  | .ninf => true
  | .nan => false

/-- Numeric value of a list of decimal digit characters. -/
def digitsVal (cs : List Char) : Nat :=
  cs.foldl (fun a c => a * 10 + (c.toNat - 48)) 0

/-- Nonempty all-decimal-digits test. -/
def isDigits (cs : List Char) : Bool := !cs.isEmpty && cs.all Char.isDigit

/-- Strip leading and trailing ASCII whitespace, as Python's int() and
    float() do before parsing. -/
def trimWs (cs : List Char) : List Char :=
  ((cs.dropWhile Char.isWhitespace).reverse.dropWhile Char.isWhitespace).reverse

/-- Model of Python `int(s)` on the strings this system feeds it:
    optional surrounding whitespace, an optional sign, then decimal
    digits.  (Unicode digits and underscore separators are outside the
    model.)  none models the ValueError. -/
def pyIntChars (cs0 : List Char) : Option Int :=
  match trimWs cs0 with
  | '+' :: rest => if isDigits rest then some (digitsVal rest) else none
  | '-' :: rest => if isDigits rest then some (-(digitsVal rest : Int)) else none
  | cs => if isDigits cs then some (digitsVal cs) else none

/-- Python `int(s)` on a string. -/
def pyInt (s : String) : Option Int := pyIntChars s.data

/-- The exponent part of a float literal, after the (lowercased) 'e':
    an optional sign and decimal digits. -/
def pyExp (cs : List Char) : Option Int :=
  match cs with
  | '+' :: rest => if isDigits rest then some (digitsVal rest) else none
  | '-' :: rest => if isDigits rest then some (-(digitsVal rest : Int)) else none
  | _ => if isDigits cs then some (digitsVal cs) else none

/-- Unsigned numeric part of Python float syntax (input already
    lowercased): digits [. digits] [e exp] or . digits [e exp]. -/
def pyNum (cs : List Char) : Option ℚ :=
  let ip := cs.takeWhile Char.isDigit
  let r1 := cs.dropWhile Char.isDigit
  match r1 with
  | [] => if ip.isEmpty then none else some (digitsVal ip : ℚ)
  | '.' :: r2 =>
    let fp := r2.takeWhile Char.isDigit
    let r3 := r2.dropWhile Char.isDigit
    if ip.isEmpty && fp.isEmpty then none
    else
      let mant : ℚ := (digitsVal ip : ℚ) + (digitsVal fp : ℚ) / (10 : ℚ) ^ fp.length
      match r3 with
      | [] => some mant
      | 'e' :: r4 => (pyExp r4).map (fun k => mant * (10 : ℚ) ^ k)
      | _ => none
  | 'e' :: r4 =>
    if ip.isEmpty then none
    else (pyExp r4).map (fun k => (digitsVal ip : ℚ) * (10 : ℚ) ^ k)
  | _ => none

/-- Model of Python `float(s)`: optional whitespace and sign, then a
    numeric literal or the special values inf / infinity / nan
    (case-insensitive).  none models the ValueError. -/
def pyFloat (s : String) : Option PyFloat :=
  let t := (trimWs s.data).map Char.toLower
  let sgn : Bool × List Char :=
    match t with
    | '+' :: r => (false, r)
    | '-' :: r => (true, r)
    | cs => (false, cs)
  let neg := sgn.1
  let body := sgn.2
  if body = "inf".data ∨ body = "infinity".data then
    some (if neg then PyFloat.ninf else PyFloat.pinf)
  else if body = "nan".data then
    some PyFloat.nan
  else
    (pyNum body).map (fun q => PyFloat.finite (if neg then -q else q))

/-- Python str.split(','): split a character list at every comma;
    the empty string yields one empty token, as in Python. -/
def splitCommas (cs : List Char) : List (List Char) :=
  match cs with
  | [] => [[]]
  | ',' :: rest => [] :: splitCommas rest
  | c :: rest =>
    match splitCommas rest with
    | t :: ts => (c :: t) :: ts
    | [] => [[c]]

/-- ApexDetector._parse_region: tuple(map(int, region_str.split(','))),
    as the sequence of parsed integers; none when any token fails
    int() (the constructor then raises). -/
def parse_region (region_str : String) : Option (List Int) :=
  (splitCommas region_str.data).mapM pyIntChars

/-- The ApexDetector state after __init__: the parsed portrait region,
    the parsed minimum-confidence floor, and the loaded reference
    portraits (insertion-ordered name/image pairs, standing for the
    reference_portraits dict). -/
structure Detector where
  portrait_region : List Int
  min_confidence : PyFloat
  reference_portraits : List (String × Image)
deriving DecidableEq

/-- ApexDetector.__init__ given the two configuration strings and the
    already-loaded reference portraits (loading scans a directory and
    is external): parse the region, then the confidence floor; none
    models a constructor exception escaping at startup. -/
def mkApexDetector (region_str conf_str : String) (refs : List (String × Image)) : Option Detector :=
  match parse_region region_str, pyFloat conf_str with
  | some r, some c => some ⟨r, c, refs⟩
  | _, _ => none

/-- numpy basic slicing l[a:b] along one axis: a negative index counts
    from the end, then both bounds are clamped to [0, len]. -/
def pySlice {α : Type} (l : List α) (a b : Int) : List α :=
  let L : Int := l.length
  let norm : Int → Nat := fun i => if i < 0 then (max 0 (L + i)).toNat else (min i L).toNat
  (l.take (norm b)).drop (norm a)

/-- ApexDetector.resize_to_1080p: return the image unchanged when it
    is already within 1920x1080; otherwise scale both axes by
    min(1080/height, 1920/width) and hand the truncated target size to
    cv2.resize.  Python float division is modelled by exact rationals;
    int() truncation of these nonnegative values is the floor. -/
def resize_to_1080p (cv : Cv2) (image : Image) : Image :=
  let height := image.shape0
  let width := image.shape1
  if height ≤ 1080 ∧ width ≤ 1920 then image
  else
    let scale_h : ℚ := 1080 / height
    let scale_w : ℚ := 1920 / width
    let scale := min scale_h scale_w
    let new_width := (⌊(width : ℚ) * scale⌋).toNat
    let new_height := (⌊(height : ℚ) * scale⌋).toNat
    cv.resizeImg image new_width new_height

/-- ApexDetector.extract_portrait_from_image: unpack the configured
    region (a ValueError when it is not exactly four values), check
    the bounding box against the image shape, then return the pure
    numpy crop image[y:y+h, x:x+w]. -/
def extract_portrait_from_image (D : Detector) (image : Image) : Except String Image :=
  match D.portrait_region with
  | [x, y, w, h] =>
    if (image.shape0 : Int) < y + h ∨ (image.shape1 : Int) < x + w then
      Except.error "Image dimensions too small for portrait extraction"
    else
      Except.ok ⟨(pySlice image.data y (y + h)).map (fun row => pySlice row x (x + w))⟩
  | _ => Except.error "cannot unpack portrait region into x, y, w, h"

/-- np.mean over a list of scores. -/
def npMean (scores : List ℚ) : ℚ := scores.sum / scores.length

/-- ApexDetector.calculate_similarity: force portrait2 to portrait1's
    pixel dimensions when the shapes differ, convert both to
    grayscale, evaluate the three template-matching methods in order
    (inverting TM_SQDIFF_NORMED via 1 - d), and return the mean of the
    collected scores. -/
def calculate_similarity (cv : Cv2) (portrait1 portrait2 : Image) : ℚ :=
  let p2 :=
    if (portrait1.shape0, portrait1.shape1) ≠ (portrait2.shape0, portrait2.shape1) then
      cv.resizeImg portrait2 portrait1.shape1 portrait1.shape0
    else portrait2
  let gray1 := cv.cvtGray portrait1
  let gray2 := cv.cvtGray p2
  let methods := [TMethod.ccoeff, TMethod.ccorr, TMethod.sqdiff]
  let scores := methods.foldl
    (fun scores method =>
      let result := cv.matchTemplate method gray1 gray2
      let score := if method = TMethod.sqdiff then 1 - result else result
      scores ++ [score])
    []
  npMean scores

/-- Outcome of the HTTP GET for one screenshot URL, at the aiohttp
    interface boundary: a response with its status and body bytes, a
    timeout, or any other exception. -/
inductive HttpResult where
  | response (status : Nat) (body : List Nat)
  | timedOut
  | excn (msg : String)
deriving DecidableEq

/-- ApexDetector.download_image: none on a non-200 status, on a body
    that cv2.imdecode cannot decode, on a timeout and on any other
    exception; the decoded image otherwise. -/
def download_image (cv : Cv2) (fetch : HttpResult) : Option Image :=
  match fetch with
  | .response status body => if status ≠ 200 then none else cv.imdecode body
  | .timedOut => none
  | .excn _ => none

/-- The per-URL best_match dict built inside process_screenshot_url. -/
structure UrlMatch where
  character_name : String
  confidence : ℚ
  url : String
deriving DecidableEq, Repr

/-- The cross-screenshot winner, after process_multiple_screenshots
    has attached the originating screenshot_index. -/
structure BestMatch where
  character_name : String
  confidence : ℚ
  url : String
  screenshot_index : Nat
deriving DecidableEq, Repr

/-- One iteration of the reference-portrait loop inside
    process_screenshot_url: the running (best_match,
    highest_confidence) pair is replaced only on a strict
    improvement. -/
def champStep (cv : Cv2) (url : String) (portrait : Image)
    (acc : Option UrlMatch × ℚ) (nr : String × Image) : Option UrlMatch × ℚ :=
  let confidence := calculate_similarity cv portrait nr.2
  if acc.2 < confidence then (some ⟨nr.1, confidence, url⟩, confidence) else acc

/-- ApexDetector.process_screenshot_url for one URL, given the fetch
    outcome: download and decode, normalize to 1080p, extract the
    portrait region (its ValueError is caught by the surrounding
    except block and yields None), scan the reference portraits for
    the highest similarity, and apply the minimum-confidence floor. -/
def process_screenshot_url (cv : Cv2) (D : Detector) (url : String) (fetch : HttpResult) : Option UrlMatch :=
  match download_image cv fetch with
  | none => none
  | some image0 =>
    let image := resize_to_1080p cv image0
    match extract_portrait_from_image D image with
    | .error _ => none
    | .ok portrait =>
      let r := D.reference_portraits.foldl (champStep cv url portrait) (none, 0)
      if pyGe r.2 D.min_confidence then r.1 else none

/-- One iteration of the reduction loop in
    process_multiple_screenshots over the enumerated per-URL results:
    a missing contribution is skipped, a present one wins only on a
    strictly higher confidence. -/
def selectStep (acc : Option (UrlMatch × Nat) × ℚ) (ir : Nat × Option UrlMatch) : Option (UrlMatch × Nat) × ℚ :=
  match ir.2 with
  | none => acc
  | some m => if acc.2 < m.confidence then (some (m, ir.1), m.confidence) else acc

/-- The reduction of process_multiple_screenshots: fold the enumerated
    per-URL results in input order, starting from no winner and
    highest_confidence 0. -/
def selectBest (results : List (Option UrlMatch)) : Option (UrlMatch × Nat) :=
  (results.enum.foldl selectStep (none, 0)).1

/-- ApexDetector.process_multiple_screenshots (and its synchronous
    wrapper process_screenshots): run the per-URL pipeline over the
    requests in input order (asyncio.gather keeps the results in input
    order), reduce to the strict-highest-confidence winner, and attach
    the winning screenshot index. -/
def process_multiple_screenshots (cv : Cv2) (D : Detector) (inputs : List (String × HttpResult)) : Option BestMatch :=
  let results := inputs.map (fun p => process_screenshot_url cv D p.1 p.2)
  match selectBest results with
  | none => none
  | some (m, idx) => some ⟨m.character_name, m.confidence, m.url, idx⟩

/-- The JSON result record persisted under result:<task_id>. -/
structure TaskResponse where
  TaskId : String
  VideoId : String
  Status : String
  Detections : List BestMatch
  BestOverall : Option BestMatch
  UniqueCharacters : List String
  TotalScreenshots : Nat
  SuccessfulDetections : Nat
  CompletedAt : String
  Error : Option String
deriving DecidableEq, Repr

/-- A write that actually reached the Redis store. -/
inductive StoreOp where
  | setex (key : String) (ttl : Nat) (value : TaskResponse)
  | incr (key : String)
deriving DecidableEq, Repr

/-- How a task function ends: returning a record, or an exception
    propagating out to the caller (Celery, or the worker loop). -/
inductive TaskOutcome where
  | returned (r : TaskResponse)
  | raised (e : String)
deriving DecidableEq, Repr

/-- The completed-status response assembled by both task functions
    from the pipeline result. -/
def buildCompleted (task_id clip_id : String) (result : Option BestMatch) (n : Nat) (now : String) : TaskResponse :=
  { TaskId := task_id
    VideoId := clip_id
    Status := "completed"
    Detections := match result with | some m => [m] | none => []
    BestOverall := result
    UniqueCharacters := match result with | some m => [m.character_name] | none => []
    TotalScreenshots := n
    SuccessfulDetections := match result with | some _ => 1 | none => 0
    CompletedAt := now
    Error := none }

/-- The failed-status record assembled in the except blocks of both
    task functions. -/
def buildFailed (task_id clip_id : String) (n : Nat) (now : String) (e : String) : TaskResponse :=
  { TaskId := task_id
    VideoId := clip_id
    Status := "failed"
    Detections := []
    BestOverall := none
    UniqueCharacters := []
    TotalScreenshots := n
    SuccessfulDetections := 0
    CompletedAt := now
    Error := some e }

/-- tasks.process_video_screenshots: run the detection pipeline (its
    outcome is the pipeline argument: a result, or an exception
    message), persist the completed record with a 7-day TTL and bump
    the daily completed counter; on any exception build a failed
    record, persist it with a 1-day TTL, bump the daily failed counter
    and re-raise the original exception.  `reachable` says whether the
    Redis store accepts calls during this run; when it does not, every
    store call raises `store_err`, so the except block's own setex
    raises in turn and that store exception propagates with nothing
    written. -/
def process_video_screenshots (reachable : Bool) (store_err : String)
    (pipeline : Except String (Option BestMatch))
    (task_id clip_id now today : String) (n : Nat) : List StoreOp × TaskOutcome :=
  match pipeline with
  | .ok result =>
    if reachable then
      let response := buildCompleted task_id clip_id result n now
      ([StoreOp.setex ("result:" ++ task_id) 604800 response,
        StoreOp.incr ("stats:completed:" ++ today)],
       TaskOutcome.returned response)
    else ([], TaskOutcome.raised store_err)
  | .error e =>
    if reachable then
      ([StoreOp.setex ("result:" ++ task_id) 86400 (buildFailed task_id clip_id n now e),
        StoreOp.incr ("stats:failed:" ++ today)],
       TaskOutcome.raised e)
    else ([], TaskOutcome.raised store_err)

/-- worker.process_task: identical to tasks.process_video_screenshots
    except that the except block returns the failed record to the
    worker loop instead of re-raising the original exception. -/
def process_task (reachable : Bool) (store_err : String)
    (pipeline : Except String (Option BestMatch))
    (task_id clip_id now today : String) (n : Nat) : List StoreOp × TaskOutcome :=
  match pipeline with
  | .ok result =>
    if reachable then
      let response := buildCompleted task_id clip_id result n now
      ([StoreOp.setex ("result:" ++ task_id) 604800 response,
        StoreOp.incr ("stats:completed:" ++ today)],
       TaskOutcome.returned response)
    else ([], TaskOutcome.raised store_err)
  | .error e =>
    if reachable then
      let error_result := buildFailed task_id clip_id n now e
      ([StoreOp.setex ("result:" ++ task_id) 86400 error_result,
        StoreOp.incr ("stats:failed:" ++ today)],
       TaskOutcome.returned error_result)
    else ([], TaskOutcome.raised store_err)

/-- Concrete OpenCV model for the concrete runs below: resize yields a
    zero image of the requested size, grayscale is the identity, every
    template-matching method scores 1, and any body decodes to the 1x1
    image [[7]]. -/
def cvK : Cv2 :=
  { resizeImg := fun _ w h => ⟨List.replicate h (List.replicate w 0)⟩
    cvtGray := fun im => im
    matchTemplate := fun _ _ _ => 1
    imdecode := fun _ => some ⟨[[7]]⟩ }

/-- Concrete OpenCV model in which every method of every comparison
    scores 0 (so each fused similarity is (0 + 0 + (1 - 1))/3 with
    sqdiff fixed at 1, that is, at most 0). -/
def cvZ : Cv2 :=
  { resizeImg := fun _ w h => ⟨List.replicate h (List.replicate w 0)⟩
    cvtGray := fun im => im
    matchTemplate := fun m _ _ => if m = TMethod.sqdiff then 1 else 0
    imdecode := fun _ => some ⟨[[7]]⟩ }

/-- Concrete detector: region x=0 y=0 w=1 h=1, floor 0.0, one
    reference portrait. -/
def detK : Detector :=
  { portrait_region := [0, 0, 1, 1]
    min_confidence := PyFloat.finite 0
    reference_portraits := [("wraith", ⟨[[5]]⟩)] }

/-- Concrete detector with a three-entry portrait region, as produced
    by the configuration string "1,2,3". -/
def detThree : Detector :=
  { portrait_region := [1, 2, 3]
    min_confidence := PyFloat.finite 0
    reference_portraits := [] }

/-- The per-URL match of the concrete run of cvK/detK on a 200
    response. -/
def matchK : UrlMatch := ⟨"wraith", 2 / 3, "http://a"⟩

/-- The cross-screenshot winner of the concrete one-URL run. -/
def bestK : BestMatch := ⟨"wraith", 2 / 3, "http://a", 0⟩

/-- Concrete one-request input list. -/
def inputsK : List (String × HttpResult) := [("http://a", HttpResult.response 200 [1])]

/-- Concrete input list whose first download times out and whose
    second succeeds. -/
def inputsOneBad : List (String × HttpResult) :=
  [("http://bad", HttpResult.timedOut), ("http://a", HttpResult.response 200 [1])]

/-- Concrete 2x2 image. -/
def imgTwo : Image := ⟨[[1, 2], [3, 4]]⟩

/-- Concrete oversized image: a single row of 1921 pixels. -/
def imgTall : Image := ⟨[List.replicate 1921 0]⟩

/-- Folding the reduction step over the enumerated tail `l` (indices
    starting at `k`) from accumulator `acc` either returns `acc`
    untouched with every present confidence at most `acc.2`, or
    produces the first-seen strict maximum: an index `j` whose match
    every present confidence fails to exceed and every earlier present
    confidence stays strictly below; in both cases every present
    confidence is at most the final highest_confidence. -/
theorem selectFold_inv (l : List (Option UrlMatch)) (k : Nat) (acc : Option (UrlMatch × Nat) × ℚ) :
    (∀ j m', l.get? j = some (some m') →
       m'.confidence ≤ (List.foldl selectStep acc (l.enumFrom k)).2) ∧
    ((List.foldl selectStep acc (l.enumFrom k) = acc ∧
        ∀ j m', l.get? j = some (some m') → m'.confidence ≤ acc.2) ∨
     (∃ j m, l.get? j = some (some m) ∧
        (List.foldl selectStep acc (l.enumFrom k)).1 = some (m, k + j) ∧
        (List.foldl selectStep acc (l.enumFrom k)).2 = m.confidence ∧
        acc.2 < m.confidence ∧
        ∀ i m', i < j → l.get? i = some (some m') → m'.confidence < m.confidence)) := by
  induction l generalizing k acc with
  | nil =>
    refine ⟨?_, Or.inl ⟨rfl, ?_⟩⟩ <;> intro j m' h <;> simp [List.get?] at h
  | cons x xs ih =>
    have hunf : List.foldl selectStep acc ((x :: xs).enumFrom k)
        = List.foldl selectStep (selectStep acc (k, x)) (xs.enumFrom (k + 1)) := rfl
    obtain ⟨ih1, ih2⟩ := ih (k + 1) (selectStep acc (k, x))
    have hmono : (selectStep acc (k, x)).2 ≤ (List.foldl selectStep (selectStep acc (k, x)) (xs.enumFrom (k + 1))).2 := by
      rcases ih2 with ⟨heq, _⟩ | ⟨j, m, _, _, h3, h4, _⟩
      · rw [heq]
      · rw [h3]; exact le_of_lt h4
    constructor
    · intro j m' hj
      rw [hunf]
      match j, hj with
      | 0, hj =>
        rw [List.get?_cons_zero] at hj
        obtain rfl : x = some m' := by injection hj
        refine le_trans ?_ hmono
        by_cases hlt : acc.2 < m'.confidence
        · simp [selectStep, hlt]
        · simp [selectStep, hlt]
          exact not_lt.mp hlt
      | j + 1, hj =>
        rw [List.get?_cons_succ] at hj
        exact ih1 j m' hj
    · match x with
      | none =>
        have hacc : selectStep acc (k, (none : Option UrlMatch)) = acc := rfl
        rw [hacc] at ih2
        rcases ih2 with ⟨heq, hall⟩ | ⟨j, m, h1, h2, h3, h4, h5⟩
        · refine Or.inl ⟨by rw [hunf, hacc] at *; exact heq, ?_⟩
          intro j m' hj
          match j, hj with
          | 0, hj => rw [List.get?_cons_zero] at hj; exact absurd hj (by simp)
          | j + 1, hj => rw [List.get?_cons_succ] at hj; exact hall j m' hj
        · refine Or.inr ⟨j + 1, m, by rw [List.get?_cons_succ]; exact h1, ?_, ?_, h4, ?_⟩
          · rw [hunf, hacc] at *
            rw [h2]
            congr 2
            omega
          · rw [hunf, hacc] at *; exact h3
          · intro i m' hi hget
            match i, hget with
            | 0, hget => rw [List.get?_cons_zero] at hget; exact absurd hget (by simp)
            | i + 1, hget =>
              rw [List.get?_cons_succ] at hget
              exact h5 i m' (by omega) hget
      | some m0 =>
        by_cases hlt : acc.2 < m0.confidence
        · have hacc : selectStep acc (k, some m0) = (some (m0, k), m0.confidence) := by
            simp [selectStep, hlt]
          rw [hacc] at ih2
          rcases ih2 with ⟨heq, hall⟩ | ⟨j, m, h1, h2, h3, h4, h5⟩
          · refine Or.inr ⟨0, m0, List.get?_cons_zero, ?_, ?_, hlt, by intro i m' hi; omega⟩
            · rw [hunf, hacc, heq]; simp
            · rw [hunf, hacc, heq]
          · refine Or.inr ⟨j + 1, m, by rw [List.get?_cons_succ]; exact h1, ?_, ?_, ?_, ?_⟩
            · rw [hunf, hacc] at *
              rw [h2]
              congr 2
              omega
            · rw [hunf, hacc] at *; exact h3
            · exact lt_trans hlt h4
            · intro i m' hi hget
              match i, hget with
              | 0, hget =>
                rw [List.get?_cons_zero] at hget
                obtain rfl : m0 = m' := by simpa using hget
                exact h4
              | i + 1, hget =>
                rw [List.get?_cons_succ] at hget
                exact h5 i m' (by omega) hget
        · have hacc : selectStep acc (k, some m0) = acc := by
            simp [selectStep, hlt]
          rw [hacc] at ih2
          have hge : m0.confidence ≤ acc.2 := not_lt.mp hlt
          rcases ih2 with ⟨heq, hall⟩ | ⟨j, m, h1, h2, h3, h4, h5⟩
          · refine Or.inl ⟨by rw [hunf, hacc] at *; exact heq, ?_⟩
            intro j m' hj
            match j, hj with
            | 0, hj =>
              rw [List.get?_cons_zero] at hj
              obtain rfl : m0 = m' := by simpa using hj
              exact hge
            | j + 1, hj => rw [List.get?_cons_succ] at hj; exact hall j m' hj
          · refine Or.inr ⟨j + 1, m, by rw [List.get?_cons_succ]; exact h1, ?_, ?_, h4, ?_⟩
            · rw [hunf, hacc] at *
              rw [h2]
              congr 2
              omega
            · rw [hunf, hacc] at *; exact h3
            · intro i m' hi hget
              match i, hget with
              | 0, hget =>
                rw [List.get?_cons_zero] at hget
                obtain rfl : m0 = m' := by simpa using hget
                exact lt_of_le_of_lt hge h4
              | i + 1, hget =>
                rw [List.get?_cons_succ] at hget
                exact h5 i m' (by omega) hget

/-- Characterization of the reduction: selectBest returns none exactly
    when no present confidence is positive, and otherwise the
    first-seen strict maximum together with its index. -/
theorem selectBest_spec (l : List (Option UrlMatch)) :
    (selectBest l = none → ∀ j m', l.get? j = some (some m') → m'.confidence ≤ 0) ∧
    (∀ m i, selectBest l = some (m, i) →
       l.get? i = some (some m) ∧ 0 < m.confidence ∧
       (∀ j m', l.get? j = some (some m') → m'.confidence ≤ m.confidence) ∧
       (∀ j m', j < i → l.get? j = some (some m') → m'.confidence < m.confidence)) := by
  have hdef : selectBest l = (List.foldl selectStep ((none, 0) : Option (UrlMatch × Nat) × ℚ) (l.enumFrom 0)).1 := rfl
  obtain ⟨h1, h2⟩ := selectFold_inv l 0 ((none, 0) : Option (UrlMatch × Nat) × ℚ)
  constructor
  · intro hnone j m' hj
    rcases h2 with ⟨heq, hall⟩ | ⟨j', m, _, hres1, _, _, _⟩
    · exact hall j m' hj
    · rw [hdef, hres1] at hnone; exact absurd hnone (by simp)
  · intro m i hsome
    rcases h2 with ⟨heq, _⟩ | ⟨j, m'', hget, hres1, hres2, hpos, hearlier⟩
    · rw [hdef, heq] at hsome; exact absurd hsome (by simp)
    · rw [hdef, hres1] at hsome
      have hpair := Option.some.inj hsome
      have hm : m'' = m := congrArg Prod.fst hpair
      have hi : 0 + j = i := congrArg Prod.snd hpair
      subst hm
      subst hi
      refine ⟨by simpa using hget, hpos, ?_, ?_⟩
      · intro j' m' hj'
        have := h1 j' m' hj'
        rwa [hres2] at this
      · intro j' m' hj' hget'
        exact hearlier j' m' (by omega) hget'

/-- Invariant of the reference-portrait loop: the running pair is
    either still (None, 0) or records a real champion whose strictly
    positive confidence equals highest_confidence. -/
theorem champFold_inv (cv : Cv2) (url : String) (portrait : Image)
    (refs : List (String × Image)) (acc : Option UrlMatch × ℚ)
    (h : (acc.1 = none ∧ acc.2 = 0) ∨ ∃ m, acc.1 = some m ∧ acc.2 = m.confidence ∧ 0 < m.confidence) :
    ((refs.foldl (champStep cv url portrait) acc).1 = none ∧ (refs.foldl (champStep cv url portrait) acc).2 = 0) ∨
    ∃ m, (refs.foldl (champStep cv url portrait) acc).1 = some m ∧
      (refs.foldl (champStep cv url portrait) acc).2 = m.confidence ∧ 0 < m.confidence := by
  induction refs generalizing acc with
  | nil => simpa using h
  | cons nr rest ih =>
    rw [List.foldl_cons]
    apply ih
    by_cases hlt : acc.2 < calculate_similarity cv portrait nr.2
    · refine Or.inr ⟨⟨nr.1, calculate_similarity cv portrait nr.2, url⟩, ?_, ?_, ?_⟩
      · simp [champStep, hlt]
      · simp [champStep, hlt]
      · have hnn : 0 ≤ acc.2 := by
          rcases h with ⟨_, h2⟩ | ⟨m, _, h2, h3⟩
          · rw [h2]
          · rw [h2]; exact le_of_lt h3
        exact lt_of_le_of_lt hnn hlt
    · have : champStep cv url portrait acc nr = acc := by
        simp [champStep, hlt]
      rw [this]
      exact h

/-- When every reference portrait scores at most 0 against the
    extracted portrait, the loop never leaves its initial (None, 0)
    state. -/
theorem champFold_zero (cv : Cv2) (url : String) (portrait : Image)
    (refs : List (String × Image))
    (h : ∀ nr ∈ refs, calculate_similarity cv portrait nr.2 ≤ 0) :
    refs.foldl (champStep cv url portrait) ((none, 0) : Option UrlMatch × ℚ) = (none, 0) := by
  induction refs with
  | nil => rfl
  | cons nr rest ih =>
    rw [List.foldl_cons]
    have hle : calculate_similarity cv portrait nr.2 ≤ 0 := h nr (List.mem_cons_self nr rest)
    have hstep : champStep cv url portrait ((none, 0) : Option UrlMatch × ℚ) nr = (none, 0) := by
      simp [champStep, not_lt.mpr hle]
    rw [hstep]
    exact ih (fun x hx => h x (List.mem_cons_of_mem nr hx))

/-- Every match that process_screenshot_url returns passed the
    minimum-confidence check with a strictly positive confidence. -/
theorem process_screenshot_url_some (cv : Cv2) (D : Detector) (url : String)
    (fetch : HttpResult) (m : UrlMatch)
    (h : process_screenshot_url cv D url fetch = some m) :
    pyGe m.confidence D.min_confidence = true ∧ 0 < m.confidence := by
  unfold process_screenshot_url at h
  split at h
  · exact absurd h (by simp)
  · rename_i image0 hdl
    simp only [] at h
    split at h
    · exact absurd h (by simp)
    · rename_i portrait hex
      rcases champFold_inv cv url portrait D.reference_portraits ((none, 0) : Option UrlMatch × ℚ)
          (Or.inl ⟨rfl, rfl⟩) with ⟨h1, h2⟩ | ⟨m', h1, h2, h3⟩
      · rw [h1] at h
        split at h <;> exact absurd h (by simp)
      · rw [h1] at h
        split at h
        · rename_i hge
          obtain rfl : m' = m := by simpa using h
          rw [h2] at hge
          exact ⟨hge, h3⟩
        · exact absurd h (by simp)

/-- Every winner of process_multiple_screenshots inherits its
    confidence and fields from a per-URL match at its recorded index,
    hence passed the floor with a strictly positive confidence. -/
theorem process_multiple_screenshots_some (cv : Cv2) (D : Detector)
    (inputs : List (String × HttpResult)) (bm : BestMatch)
    (h : process_multiple_screenshots cv D inputs = some bm) :
    pyGe bm.confidence D.min_confidence = true ∧ 0 < bm.confidence := by
  unfold process_multiple_screenshots at h
  simp only [] at h
  split at h
  · exact absurd h (by simp)
  · rename_i m idx hsel
    obtain rfl : (⟨m.character_name, m.confidence, m.url, idx⟩ : BestMatch) = bm := by
      simpa using h
    obtain ⟨hget, hpos, -, -⟩ := (selectBest_spec _).2 m idx hsel
    rw [List.get?_map] at hget
    rcases hp : inputs.get? idx with - | p
    · rw [hp] at hget; exact absurd hget (by simp)
    · rw [hp] at hget
      have hm : process_screenshot_url cv D p.1 p.2 = some m := by simpa using hget
      obtain ⟨hge, _⟩ := process_screenshot_url_some cv D p.1 p.2 m hm
      exact ⟨hge, hpos⟩

/-- The completed-record builder satisfies the terminal-record
    invariant relating BestOverall, Detections and
    SuccessfulDetections. -/
theorem buildCompleted_inv (task_id clip_id : String) (result : Option BestMatch) (n : Nat) (now : String) :
    ((buildCompleted task_id clip_id result n now).BestOverall = none ↔
       (buildCompleted task_id clip_id result n now).Detections = []) ∧
    ((buildCompleted task_id clip_id result n now).Detections = [] ↔
       (buildCompleted task_id clip_id result n now).SuccessfulDetections = 0) ∧
    ((buildCompleted task_id clip_id result n now).SuccessfulDetections = 0 ∨
       (buildCompleted task_id clip_id result n now).SuccessfulDetections = 1) := by
  cases result <;> simp [buildCompleted]

/-- The failed-record builder satisfies the same invariant. -/
theorem buildFailed_inv (task_id clip_id : String) (n : Nat) (now : String) (e : String) :
    ((buildFailed task_id clip_id n now e).BestOverall = none ↔
       (buildFailed task_id clip_id n now e).Detections = []) ∧
    ((buildFailed task_id clip_id n now e).Detections = [] ↔
       (buildFailed task_id clip_id n now e).SuccessfulDetections = 0) ∧
    ((buildFailed task_id clip_id n now e).SuccessfulDetections = 0 ∨
       (buildFailed task_id clip_id n now e).SuccessfulDetections = 1) := by
  simp [buildFailed]

/-- Claim C1 (counterexample): with the store unreachable during
    persistence, the concrete run writes no record at all under
    result:t1 — and increments no counter — contrary to the claim that
    an error record is written and the failed counter incremented; the
    store exception propagates instead. -/
theorem store_unreachable_counterexample :
    (process_video_screenshots false "Error 111 connecting to redis" (Except.ok none)
        "t1" "v1" "2026-10-12T00:00:00+00:00" "2026-10-12" 3).1 = [] ∧
    (process_video_screenshots false "Error 111 connecting to redis" (Except.ok none)
        "t1" "v1" "2026-10-12T00:00:00+00:00" "2026-10-12" 3).2 =
      TaskOutcome.raised "Error 111 connecting to redis" := ⟨rfl, rfl⟩

/-- Claim C1 (amended): when the store is unreachable during
    persistence, both task functions write nothing — no error record,
    no counter — and the store exception itself propagates out of the
    task (reaching the transport in the Celery variant); only when the
    store is reachable does a pipeline failure produce the claimed
    error record, failed-counter increment and re-raise. -/
theorem store_unreachable_behavior (store_err : String)
    (pipeline : Except String (Option BestMatch))
    (task_id clip_id now today : String) (n : Nat) (e : String) :
    (process_video_screenshots false store_err pipeline task_id clip_id now today n =
       ([], TaskOutcome.raised store_err)) ∧
    (process_task false store_err pipeline task_id clip_id now today n =
       ([], TaskOutcome.raised store_err)) ∧
    (process_video_screenshots true store_err (Except.error e) task_id clip_id now today n =
       ([StoreOp.setex ("result:" ++ task_id) 86400 (buildFailed task_id clip_id n now e),
         StoreOp.incr ("stats:failed:" ++ today)],
        TaskOutcome.raised e)) := by
  refine ⟨?_, ?_, rfl⟩ <;> cases pipeline <;> rfl

/-- Claim C2: every record either task function hands to the store
    satisfies BestOverall = null iff Detections = [] iff
    SuccessfulDetections = 0 (and SuccessfulDetections is 0 or 1, so
    presence is equivalent to SuccessfulDetections = 1). -/
theorem persisted_result_invariant (reachable : Bool) (store_err : String)
    (pipeline : Except String (Option BestMatch))
    (task_id clip_id now today : String) (n : Nat) :
    (∀ k t r, StoreOp.setex k t r ∈ (process_video_screenshots reachable store_err pipeline task_id clip_id now today n).1 →
       ((r.BestOverall = none ↔ r.Detections = []) ∧
        (r.Detections = [] ↔ r.SuccessfulDetections = 0) ∧
        (r.SuccessfulDetections = 0 ∨ r.SuccessfulDetections = 1))) ∧
    (∀ k t r, StoreOp.setex k t r ∈ (process_task reachable store_err pipeline task_id clip_id now today n).1 →
       ((r.BestOverall = none ↔ r.Detections = []) ∧
        (r.Detections = [] ↔ r.SuccessfulDetections = 0) ∧
        (r.SuccessfulDetections = 0 ∨ r.SuccessfulDetections = 1))) := by
  constructor <;>
  · intro k t r hmem
    cases pipeline <;> cases reachable <;>
      simp [process_video_screenshots, process_task] at hmem
    case error.true =>
      obtain ⟨-, -, rfl⟩ := hmem
      exact buildFailed_inv _ _ _ _ _
    case ok.true =>
      obtain ⟨-, -, rfl⟩ := hmem
      exact buildCompleted_inv _ _ _ _ _

/-- Claim C2 (witness): a concrete completed record with one detection
    is persisted and satisfies the invariant. -/
theorem persisted_result_invariant_witness :
    (StoreOp.setex "result:t1" 604800 (buildCompleted "t1" "v1" (some bestK) 1 "now") ∈
       (process_video_screenshots true "conn" (Except.ok (some bestK)) "t1" "v1" "now" "2026-10-12" 1).1) ∧
    (((buildCompleted "t1" "v1" (some bestK) 1 "now").BestOverall = none ↔
        (buildCompleted "t1" "v1" (some bestK) 1 "now").Detections = []) ∧
     ((buildCompleted "t1" "v1" (some bestK) 1 "now").Detections = [] ↔
        (buildCompleted "t1" "v1" (some bestK) 1 "now").SuccessfulDetections = 0) ∧
     ((buildCompleted "t1" "v1" (some bestK) 1 "now").SuccessfulDetections = 0 ∨
        (buildCompleted "t1" "v1" (some bestK) 1 "now").SuccessfulDetections = 1)) := by
  have hmem : StoreOp.setex "result:t1" 604800 (buildCompleted "t1" "v1" (some bestK) 1 "now") ∈
      (process_video_screenshots true "conn" (Except.ok (some bestK)) "t1" "v1" "now" "2026-10-12" 1).1 := by
    simp [process_video_screenshots]
  exact ⟨hmem,
    (persisted_result_invariant true "conn" (Except.ok (some bestK)) "t1" "v1" "now" "2026-10-12" 1).1
      "result:t1" 604800 (buildCompleted "t1" "v1" (some bestK) 1 "now") hmem⟩

/-- Claim C3: in every record the task persists after running the
    detection pipeline, any recorded best match (in Detections or as
    BestOverall) passed the configured minimum-confidence floor check,
    and when the floor is a finite value its confidence is >= that
    floor — a candidate scoring below the floor never appears. -/
theorem best_match_confidence_floor (cv : Cv2) (D : Detector)
    (inputs : List (String × HttpResult)) (reachable : Bool)
    (store_err task_id clip_id now today : String) :
    ∀ k t r, StoreOp.setex k t r ∈
        (process_video_screenshots reachable store_err
          (Except.ok (process_multiple_screenshots cv D inputs))
          task_id clip_id now today inputs.length).1 →
      (∀ m ∈ r.Detections, pyGe m.confidence D.min_confidence = true) ∧
      (∀ m, r.BestOverall = some m → pyGe m.confidence D.min_confidence = true) ∧
      (∀ q m, D.min_confidence = PyFloat.finite q → r.BestOverall = some m → q ≤ m.confidence) := by
  intro k t r hmem
  cases reachable with
  | false => simp [process_video_screenshots] at hmem
  | true =>
    simp [process_video_screenshots] at hmem
    obtain ⟨-, -, rfl⟩ := hmem
    rcases hres : process_multiple_screenshots cv D inputs with - | bm
    · simp [buildCompleted, hres]
    · obtain ⟨hge, -⟩ := process_multiple_screenshots_some cv D inputs bm hres
      refine ⟨?_, ?_, ?_⟩
      · intro m hm
        obtain rfl : m = bm := by simpa [buildCompleted, hres] using hm
        exact hge
      · intro m hm
        obtain rfl : bm = m := by simpa [buildCompleted, hres] using hm
        exact hge
      · intro q m hq hm
        obtain rfl : bm = m := by simpa [buildCompleted, hres] using hm
        rw [hq] at hge
        simpa [pyGe] using hge

/-- Claim C3 (witness): the concrete completed record holds the match
    of confidence 2/3, above the configured floor 0. -/
theorem best_match_confidence_floor_witness :
    (StoreOp.setex "result:t1" 604800
        (buildCompleted "t1" "v1" (some bestK) inputsK.length "now") ∈
      (process_video_screenshots true "conn"
        (Except.ok (process_multiple_screenshots cvK detK inputsK))
        "t1" "v1" "now" "2026-10-12" inputsK.length).1) ∧
    (∀ m ∈ (buildCompleted "t1" "v1" (some bestK) inputsK.length "now").Detections,
       pyGe m.confidence detK.min_confidence = true) ∧
    (∀ m, (buildCompleted "t1" "v1" (some bestK) inputsK.length "now").BestOverall = some m →
       pyGe m.confidence detK.min_confidence = true) ∧
    (∀ q m, detK.min_confidence = PyFloat.finite q →
       (buildCompleted "t1" "v1" (some bestK) inputsK.length "now").BestOverall = some m →
       q ≤ m.confidence) := by
  have hEval : process_multiple_screenshots cvK detK inputsK = some bestK := by
    simp [process_multiple_screenshots, inputsK, selectBest, List.enum, selectStep,
      process_screenshot_url, download_image, cvK, detK, resize_to_1080p,
      extract_portrait_from_image, pySlice, champStep, calculate_similarity, npMean,
      pyGe, bestK, Image.shape0, Image.shape1]
    norm_num
  have hmem : StoreOp.setex "result:t1" 604800
      (buildCompleted "t1" "v1" (some bestK) inputsK.length "now") ∈
      (process_video_screenshots true "conn"
        (Except.ok (process_multiple_screenshots cvK detK inputsK))
        "t1" "v1" "now" "2026-10-12" inputsK.length).1 := by
    rw [hEval]
    simp [process_video_screenshots]
  exact ⟨hmem,
    best_match_confidence_floor cvK detK inputsK true "conn" "t1" "v1" "now" "2026-10-12"
      "result:t1" 604800 (buildCompleted "t1" "v1" (some bestK) inputsK.length "now") hmem⟩

/-- Claim C4: the cross-screenshot reduction returns the first-seen
    strict maximum of the per-URL champions, processed in input
    order: the winner is at its recorded index in the mapped results,
    no champion exceeds its confidence, every champion of strictly
    smaller index has strictly smaller confidence (so on a tie the
    lower index wins), and some winner is returned whenever any
    champion exists. -/
theorem multi_screenshot_reduction (cv : Cv2) (D : Detector) (inputs : List (String × HttpResult)) :
    (∀ bm, process_multiple_screenshots cv D inputs = some bm →
       (inputs.map (fun p => process_screenshot_url cv D p.1 p.2)).get? bm.screenshot_index =
         some (some ⟨bm.character_name, bm.confidence, bm.url⟩) ∧
       (∀ j m', (inputs.map (fun p => process_screenshot_url cv D p.1 p.2)).get? j = some (some m') →
          m'.confidence ≤ bm.confidence) ∧
       (∀ j m', j < bm.screenshot_index →
          (inputs.map (fun p => process_screenshot_url cv D p.1 p.2)).get? j = some (some m') →
          m'.confidence < bm.confidence)) ∧
    ((∃ j m', (inputs.map (fun p => process_screenshot_url cv D p.1 p.2)).get? j = some (some m')) →
       (process_multiple_screenshots cv D inputs).isSome = true) := by
  constructor
  · intro bm h
    unfold process_multiple_screenshots at h
    simp only [] at h
    split at h
    · exact absurd h (by simp)
    · rename_i m idx hsel
      obtain rfl : (⟨m.character_name, m.confidence, m.url, idx⟩ : BestMatch) = bm := by
        simpa using h
      obtain ⟨hget, -, hall, hearlier⟩ := (selectBest_spec _).2 m idx hsel
      exact ⟨hget, hall, hearlier⟩
  · rintro ⟨j, m', hj⟩
    rcases hsel : selectBest (inputs.map (fun p => process_screenshot_url cv D p.1 p.2)) with - | ⟨m, idx⟩
    · have hle := (selectBest_spec _).1 hsel j m' hj
      rw [List.get?_map] at hj
      rcases hp : inputs.get? j with - | p
      · rw [hp] at hj; exact absurd hj (by simp)
      · rw [hp] at hj
        have hm : process_screenshot_url cv D p.1 p.2 = some m' := by simpa using hj
        obtain ⟨-, hpos⟩ := process_screenshot_url_some cv D p.1 p.2 m' hm
        exact absurd hle (not_le.mpr hpos)
    · unfold process_multiple_screenshots
      simp only []
      rw [hsel]
      simp

/-- Claim C4 (witness): the concrete one-URL run returns the champion
    of index 0 and all four conclusions hold for it. -/
theorem multi_screenshot_reduction_witness :
    (process_multiple_screenshots cvK detK inputsK = some bestK) ∧
    ((inputsK.map (fun p => process_screenshot_url cvK detK p.1 p.2)).get? bestK.screenshot_index =
       some (some ⟨bestK.character_name, bestK.confidence, bestK.url⟩) ∧
     (∀ j m', (inputsK.map (fun p => process_screenshot_url cvK detK p.1 p.2)).get? j = some (some m') →
        m'.confidence ≤ bestK.confidence) ∧
     (∀ j m', j < bestK.screenshot_index →
        (inputsK.map (fun p => process_screenshot_url cvK detK p.1 p.2)).get? j = some (some m') →
        m'.confidence < bestK.confidence)) ∧
    ((process_multiple_screenshots cvK detK inputsK).isSome = true) := by
  have hEval : process_multiple_screenshots cvK detK inputsK = some bestK := by
    simp [process_multiple_screenshots, inputsK, selectBest, List.enum, selectStep,
      process_screenshot_url, download_image, cvK, detK, resize_to_1080p,
      extract_portrait_from_image, pySlice, champStep, calculate_similarity, npMean,
      pyGe, bestK, Image.shape0, Image.shape1]
    norm_num
  refine ⟨hEval, (multi_screenshot_reduction cvK detK inputsK).1 bestK hEval, by rw [hEval]; rfl⟩

/-- Claim C5: a URL whose download fails (non-200 status, timeout,
    exception or undecodable bytes) or whose region extraction fails
    contributes no per-URL result; and when the store is reachable and
    exactly one of the inputs fails to download while the rest
    succeed, the task still persists and returns a completed record
    covering all the screenshots. -/
theorem url_failure_isolation (cv : Cv2) (D : Detector) :
    (∀ url fetch, download_image cv fetch = none →
       process_screenshot_url cv D url fetch = none) ∧
    (∀ url fetch img e, download_image cv fetch = some img →
       extract_portrait_from_image D (resize_to_1080p cv img) = Except.error e →
       process_screenshot_url cv D url fetch = none) ∧
    (∀ (inputs : List (String × HttpResult)) (store_err task_id clip_id now today : String),
       (∃ i, (∃ p, inputs.get? i = some p ∧ download_image cv p.2 = none) ∧
          (∀ j p', j ≠ i → inputs.get? j = some p' → (download_image cv p'.2).isSome = true)) →
       process_video_screenshots true store_err
           (Except.ok (process_multiple_screenshots cv D inputs))
           task_id clip_id now today inputs.length =
         ([StoreOp.setex ("result:" ++ task_id) 604800
             (buildCompleted task_id clip_id (process_multiple_screenshots cv D inputs) inputs.length now),
           StoreOp.incr ("stats:completed:" ++ today)],
          TaskOutcome.returned
            (buildCompleted task_id clip_id (process_multiple_screenshots cv D inputs) inputs.length now)) ∧
       (buildCompleted task_id clip_id (process_multiple_screenshots cv D inputs) inputs.length now).Status
           = "completed" ∧
       (buildCompleted task_id clip_id (process_multiple_screenshots cv D inputs) inputs.length now).TotalScreenshots
           = inputs.length ∧
       (buildCompleted task_id clip_id (process_multiple_screenshots cv D inputs) inputs.length now).Error
           = none) := by
  refine ⟨?_, ?_, ?_⟩
  · intro url fetch h
    simp [process_screenshot_url, h]
  · intro url fetch img e h1 h2
    simp [process_screenshot_url, h1, h2]
  · intro inputs store_err task_id clip_id now today hyp
    exact ⟨rfl, rfl, rfl, rfl⟩

/-- Claim C5 (witness): with the first of two inputs timing out and
    the second succeeding, the task still completes. -/
theorem url_failure_isolation_witness :
    (download_image cvK HttpResult.timedOut = none) ∧
    (∃ i, (∃ p, inputsOneBad.get? i = some p ∧ download_image cvK p.2 = none) ∧
       (∀ j p', j ≠ i → inputsOneBad.get? j = some p' → (download_image cvK p'.2).isSome = true)) ∧
    (process_video_screenshots true "conn"
        (Except.ok (process_multiple_screenshots cvK detK inputsOneBad))
        "t1" "v1" "now" "2026-10-12" inputsOneBad.length =
      ([StoreOp.setex ("result:" ++ "t1") 604800
          (buildCompleted "t1" "v1" (process_multiple_screenshots cvK detK inputsOneBad) inputsOneBad.length "now"),
        StoreOp.incr ("stats:completed:" ++ "2026-10-12")],
       TaskOutcome.returned
         (buildCompleted "t1" "v1" (process_multiple_screenshots cvK detK inputsOneBad) inputsOneBad.length "now"))) ∧
    (buildCompleted "t1" "v1" (process_multiple_screenshots cvK detK inputsOneBad) inputsOneBad.length "now").Status
        = "completed" := by
  have hone : ∃ i, (∃ p, inputsOneBad.get? i = some p ∧ download_image cvK p.2 = none) ∧
      (∀ j p', j ≠ i → inputsOneBad.get? j = some p' → (download_image cvK p'.2).isSome = true) := by
    refine ⟨0, ⟨("http://bad", HttpResult.timedOut), by decide, by decide⟩, ?_⟩
    intro j p' hj hget
    match j with
    | 0 => exact absurd rfl hj
    | 1 =>
      obtain rfl : ("http://a", HttpResult.response 200 [1]) = p' := by
        simpa [inputsOneBad] using hget
      decide
    | j + 2 => simp [inputsOneBad] at hget
  obtain ⟨hc1, hc2, hc3, -⟩ :=
    (url_failure_isolation cvK detK).2.2 inputsOneBad "conn" "t1" "v1" "now" "2026-10-12" hone
  exact ⟨rfl, hone, hc1, hc2⟩

/-- Claim C10: every match returned by process_screenshot_url or by
    process_multiple_screenshots has confidence strictly greater than
    0 (the running maxima start at 0 and move only on strict
    improvement), for every configured floor including floors <= 0;
    and a screenshot on which every reference portrait scores at most
    0 contributes no result. -/
theorem positive_confidence_only (cv : Cv2) (D : Detector) :
    (∀ url fetch m, process_screenshot_url cv D url fetch = some m → 0 < m.confidence) ∧
    (∀ inputs bm, process_multiple_screenshots cv D inputs = some bm → 0 < bm.confidence) ∧
    (∀ url fetch img portrait, download_image cv fetch = some img →
       extract_portrait_from_image D (resize_to_1080p cv img) = Except.ok portrait →
       (∀ nr ∈ D.reference_portraits, calculate_similarity cv portrait nr.2 ≤ 0) →
       process_screenshot_url cv D url fetch = none) := by
  refine ⟨?_, ?_, ?_⟩
  · intro url fetch m h
    exact (process_screenshot_url_some cv D url fetch m h).2
  · intro inputs bm h
    exact (process_multiple_screenshots_some cv D inputs bm h).2
  · intro url fetch img portrait h1 h2 h3
    have hz := champFold_zero cv url portrait D.reference_portraits h3
    simp [process_screenshot_url, h1, h2, hz]

/-- Claim C10 (witness): the concrete run returns confidence 2/3 > 0,
    and with every method's score forced so that each fused similarity
    is 0, the same screenshot contributes nothing although the floor
    is 0. -/
theorem positive_confidence_only_witness :
    (process_screenshot_url cvK detK "http://a" (HttpResult.response 200 [1]) = some matchK) ∧
    0 < matchK.confidence ∧
    (process_multiple_screenshots cvK detK inputsK = some bestK) ∧
    0 < bestK.confidence ∧
    (download_image cvZ (HttpResult.response 200 [1]) = some ⟨[[7]]⟩) ∧
    (extract_portrait_from_image detK (resize_to_1080p cvZ ⟨[[7]]⟩) = Except.ok ⟨[[7]]⟩) ∧
    (∀ nr ∈ detK.reference_portraits, calculate_similarity cvZ ⟨[[7]]⟩ nr.2 ≤ 0) ∧
    (process_screenshot_url cvZ detK "http://a" (HttpResult.response 200 [1]) = none) := by
  have hm : process_screenshot_url cvK detK "http://a" (HttpResult.response 200 [1]) = some matchK := by
    simp [process_screenshot_url, download_image, cvK, detK, resize_to_1080p,
      extract_portrait_from_image, pySlice, champStep, calculate_similarity, npMean,
      pyGe, matchK, Image.shape0, Image.shape1]
    norm_num
  have hEval : process_multiple_screenshots cvK detK inputsK = some bestK := by
    simp [process_multiple_screenshots, inputsK, selectBest, List.enum, selectStep,
      process_screenshot_url, download_image, cvK, detK, resize_to_1080p,
      extract_portrait_from_image, pySlice, champStep, calculate_similarity, npMean,
      pyGe, bestK, Image.shape0, Image.shape1]
    norm_num
  have hz : ∀ nr ∈ detK.reference_portraits, calculate_similarity cvZ ⟨[[7]]⟩ nr.2 ≤ 0 := by
    intro nr hnr
    obtain rfl : nr = ("wraith", (⟨[[5]]⟩ : Image)) := by simpa [detK] using hnr
    simp [calculate_similarity, npMean, cvZ]
  refine ⟨hm, (positive_confidence_only cvK detK).1 "http://a" _ matchK hm,
    hEval, (positive_confidence_only cvK detK).2.1 inputsK bestK hEval,
    rfl, rfl, hz,
    (positive_confidence_only cvZ detK).2.2 "http://a" (HttpResult.response 200 [1]) ⟨[[7]]⟩ ⟨[[7]]⟩
      rfl rfl hz⟩

/-- Claim C8: the fused similarity is the arithmetic mean of the
    normalized correlation coefficient, the normalized
    cross-correlation and the inverted (1 - d) normalized
    squared-difference, evaluated on the grayscale conversions, with
    the second portrait first resized to the first portrait's exact
    pixel dimensions whenever the shapes differ. -/
theorem calculate_similarity_spec (cv : Cv2) (p1 p2 : Image) :
    calculate_similarity cv p1 p2 =
      (cv.matchTemplate TMethod.ccoeff (cv.cvtGray p1)
          (cv.cvtGray (if (p1.shape0, p1.shape1) ≠ (p2.shape0, p2.shape1)
            then cv.resizeImg p2 p1.shape1 p1.shape0 else p2)) +
       cv.matchTemplate TMethod.ccorr (cv.cvtGray p1)
          (cv.cvtGray (if (p1.shape0, p1.shape1) ≠ (p2.shape0, p2.shape1)
            then cv.resizeImg p2 p1.shape1 p1.shape0 else p2)) +
       (1 - cv.matchTemplate TMethod.sqdiff (cv.cvtGray p1)
          (cv.cvtGray (if (p1.shape0, p1.shape1) ≠ (p2.shape0, p2.shape1)
            then cv.resizeImg p2 p1.shape1 p1.shape0 else p2)))) / 3 := by
  by_cases hsh : (p1.shape0, p1.shape1) ≠ (p2.shape0, p2.shape1) <;>
    simp [calculate_similarity, npMean, hsh] <;> ring

/-- Unpacking a non-4-entry portrait region raises (the tuple
    unpacking ValueError), before any shape check. -/
theorem region_unpack_fail (D : Detector) (image : Image)
    (hlen : D.portrait_region.length ≠ 4) :
    ∃ e, extract_portrait_from_image D image = Except.error e := by
  rcases D with ⟨region, mc, refs⟩
  match region, hlen with
  | [], _ => exact ⟨_, rfl⟩
  | [a], _ => exact ⟨_, rfl⟩
  | [a, b], _ => exact ⟨_, rfl⟩
  | [a, b, c], _ => exact ⟨_, rfl⟩
  | [a, b, c, d], hlen => simp at hlen
  | a :: b :: c :: d :: e :: tl, _ => exact ⟨_, rfl⟩

/-- Claim C9 (counterexample): the region string "1,2,3" does not
    denote exactly four integers, yet constructing the detector
    succeeds — the error is deferred instead of raised at startup. -/
theorem region_arity_counterexample :
    (mkApexDetector "1,2,3" "0.44" []).map (fun d => d.portrait_region) = some [1, 2, 3] := by
  decide

/-- Claim C9 (amended): construction fails at startup exactly when
    some region token fails int() or the confidence string fails
    float(); a region whose tokens all parse but whose arity is not 4
    constructs successfully, and then every region extraction fails at
    task time with the unpacking error instead. -/
theorem config_failfast_amended :
    (∀ region_str conf_str refs,
       (parse_region region_str = none ∨ pyFloat conf_str = none) →
       mkApexDetector region_str conf_str refs = none) ∧
    (∀ region_str conf_str refs r c,
       parse_region region_str = some r → pyFloat conf_str = some c →
       mkApexDetector region_str conf_str refs = some ⟨r, c, refs⟩) ∧
    (∀ D image, D.portrait_region.length ≠ 4 →
       ∃ e, extract_portrait_from_image D image = Except.error e) := by
  refine ⟨?_, ?_, ?_⟩
  · intro region_str conf_str refs h
    rcases h with h | h
    · simp [mkApexDetector, h]
    · rcases hr : parse_region region_str with - | r <;> simp [mkApexDetector, hr, h]
  · intro region_str conf_str refs r c h1 h2
    simp [mkApexDetector, h1, h2]
  · intro D image hlen
    exact region_unpack_fail D image hlen

/-- Claim C9 (witness): "90,x" fails int() so construction fails; the
    three-entry region [1, 2, 3] has arity other than 4 and every
    extraction against it errors. -/
theorem config_failfast_amended_witness :
    (parse_region "90,x" = none) ∧
    (mkApexDetector "90,x" "0.44" [] = none) ∧
    (detThree.portrait_region.length ≠ 4) ∧
    (∃ e, extract_portrait_from_image detThree imgTwo = Except.error e) ∧
    (extract_portrait_from_image detThree imgTwo =
       Except.error "cannot unpack portrait region into x, y, w, h") := by
  refine ⟨by decide, config_failfast_amended.1 "90,x" "0.44" [] (Or.inl (by decide)),
    by decide, config_failfast_amended.2.2 detThree imgTwo (by decide), rfl⟩

/-- Claim C6: resize_to_1080p is the identity whenever the image is
    already within 1920x1080; otherwise it hands cv2.resize the target
    obtained by scaling both axes with the single uniform factor
    min(1080/height, 1920/width), and that truncated target fits the
    ceiling and never exceeds the source dimensions (no upscaling, no
    aspect distortion: one factor for both axes). -/
theorem resize_to_1080p_spec (cv : Cv2) (image : Image) :
    (image.shape0 ≤ 1080 ∧ image.shape1 ≤ 1920 → resize_to_1080p cv image = image) ∧
    (¬(image.shape0 ≤ 1080 ∧ image.shape1 ≤ 1920) → 0 < image.shape0 → 0 < image.shape1 →
       resize_to_1080p cv image =
         cv.resizeImg image
           (⌊(image.shape1 : ℚ) * min ((1080 : ℚ) / image.shape0) ((1920 : ℚ) / image.shape1)⌋).toNat
           (⌊(image.shape0 : ℚ) * min ((1080 : ℚ) / image.shape0) ((1920 : ℚ) / image.shape1)⌋).toNat ∧
       (⌊(image.shape1 : ℚ) * min ((1080 : ℚ) / image.shape0) ((1920 : ℚ) / image.shape1)⌋).toNat ≤ 1920 ∧
       (⌊(image.shape0 : ℚ) * min ((1080 : ℚ) / image.shape0) ((1920 : ℚ) / image.shape1)⌋).toNat ≤ 1080 ∧
       (⌊(image.shape1 : ℚ) * min ((1080 : ℚ) / image.shape0) ((1920 : ℚ) / image.shape1)⌋).toNat ≤ image.shape1 ∧
       (⌊(image.shape0 : ℚ) * min ((1080 : ℚ) / image.shape0) ((1920 : ℚ) / image.shape1)⌋).toNat ≤ image.shape0) := by
  constructor
  · intro h
    simp [resize_to_1080p, h.1, h.2]
  · intro hn h0 h1
    have hq0 : (0 : ℚ) < (image.shape0 : ℚ) := by exact_mod_cast h0
    have hq1 : (0 : ℚ) < (image.shape1 : ℚ) := by exact_mod_cast h1
    have hs0 : (0 : ℚ) ≤ min ((1080 : ℚ) / image.shape0) ((1920 : ℚ) / image.shape1) :=
      le_min (by positivity) (by positivity)
    have hs1 : min ((1080 : ℚ) / image.shape0) ((1920 : ℚ) / image.shape1) ≤ 1 := by
      rcases not_and_or.mp hn with hh | hw
      · push_neg at hh
        have : (1080 : ℚ) / image.shape0 < 1 := (div_lt_one hq0).mpr (by exact_mod_cast hh)
        exact le_of_lt (lt_of_le_of_lt (min_le_left _ _) this)
      · push_neg at hw
        have : (1920 : ℚ) / image.shape1 < 1 := (div_lt_one hq1).mpr (by exact_mod_cast hw)
        exact le_of_lt (lt_of_le_of_lt (min_le_right _ _) this)
    have hwb : (image.shape1 : ℚ) * min ((1080 : ℚ) / image.shape0) ((1920 : ℚ) / image.shape1) ≤ 1920 := by
      calc (image.shape1 : ℚ) * min ((1080 : ℚ) / image.shape0) ((1920 : ℚ) / image.shape1)
          ≤ (image.shape1 : ℚ) * ((1920 : ℚ) / image.shape1) :=
            mul_le_mul_of_nonneg_left (min_le_right _ _) hq1.le
        _ = 1920 := by field_simp
    have hhb : (image.shape0 : ℚ) * min ((1080 : ℚ) / image.shape0) ((1920 : ℚ) / image.shape1) ≤ 1080 := by
      calc (image.shape0 : ℚ) * min ((1080 : ℚ) / image.shape0) ((1920 : ℚ) / image.shape1)
          ≤ (image.shape0 : ℚ) * ((1080 : ℚ) / image.shape0) :=
            mul_le_mul_of_nonneg_left (min_le_left _ _) hq0.le
        _ = 1080 := by field_simp
    have hwo : (image.shape1 : ℚ) * min ((1080 : ℚ) / image.shape0) ((1920 : ℚ) / image.shape1) ≤ image.shape1 := by
      calc (image.shape1 : ℚ) * min ((1080 : ℚ) / image.shape0) ((1920 : ℚ) / image.shape1)
          ≤ (image.shape1 : ℚ) * 1 := mul_le_mul_of_nonneg_left hs1 hq1.le
        _ = image.shape1 := mul_one _
    have hho : (image.shape0 : ℚ) * min ((1080 : ℚ) / image.shape0) ((1920 : ℚ) / image.shape1) ≤ image.shape0 := by
      calc (image.shape0 : ℚ) * min ((1080 : ℚ) / image.shape0) ((1920 : ℚ) / image.shape1)
          ≤ (image.shape0 : ℚ) * 1 := mul_le_mul_of_nonneg_left hs1 hq0.le
        _ = image.shape0 := mul_one _
    refine ⟨by simp [resize_to_1080p, hn], ?_, ?_, ?_, ?_⟩
    · have : ⌊(image.shape1 : ℚ) * min ((1080 : ℚ) / image.shape0) ((1920 : ℚ) / image.shape1)⌋ ≤ (1920 : ℤ) := by
        have := Int.floor_le_floor hwb
        simpa using this
      exact Int.toNat_le.mpr (by exact_mod_cast this)
    · have : ⌊(image.shape0 : ℚ) * min ((1080 : ℚ) / image.shape0) ((1920 : ℚ) / image.shape1)⌋ ≤ (1080 : ℤ) := by
        have := Int.floor_le_floor hhb
        simpa using this
      exact Int.toNat_le.mpr (by exact_mod_cast this)
    · have : ⌊(image.shape1 : ℚ) * min ((1080 : ℚ) / image.shape0) ((1920 : ℚ) / image.shape1)⌋ ≤ (image.shape1 : ℤ) := by
        have := Int.floor_le_floor hwo
        simpa using this
      exact Int.toNat_le.mpr (by exact_mod_cast this)
    · have : ⌊(image.shape0 : ℚ) * min ((1080 : ℚ) / image.shape0) ((1920 : ℚ) / image.shape1)⌋ ≤ (image.shape0 : ℤ) := by
        have := Int.floor_le_floor hho
        simpa using this
      exact Int.toNat_le.mpr (by exact_mod_cast this)

/-- Claim C6 (witness): a 2x2 image passes through unchanged; a 2160x1
    image is handed to cv2.resize with the uniformly scaled target,
    which fits the ceiling and does not exceed the source size. -/
theorem resize_to_1080p_spec_witness :
    (imgTwo.shape0 ≤ 1080 ∧ imgTwo.shape1 ≤ 1920) ∧
    resize_to_1080p cvK imgTwo = imgTwo ∧
    ¬(imgTall.shape0 ≤ 1080 ∧ imgTall.shape1 ≤ 1920) ∧
    0 < imgTall.shape0 ∧ 0 < imgTall.shape1 ∧
    (resize_to_1080p cvK imgTall =
       cvK.resizeImg imgTall
         (⌊(imgTall.shape1 : ℚ) * min ((1080 : ℚ) / imgTall.shape0) ((1920 : ℚ) / imgTall.shape1)⌋).toNat
         (⌊(imgTall.shape0 : ℚ) * min ((1080 : ℚ) / imgTall.shape0) ((1920 : ℚ) / imgTall.shape1)⌋).toNat ∧
     (⌊(imgTall.shape1 : ℚ) * min ((1080 : ℚ) / imgTall.shape0) ((1920 : ℚ) / imgTall.shape1)⌋).toNat ≤ 1920 ∧
     (⌊(imgTall.shape0 : ℚ) * min ((1080 : ℚ) / imgTall.shape0) ((1920 : ℚ) / imgTall.shape1)⌋).toNat ≤ 1080 ∧
     (⌊(imgTall.shape1 : ℚ) * min ((1080 : ℚ) / imgTall.shape0) ((1920 : ℚ) / imgTall.shape1)⌋).toNat ≤ imgTall.shape1 ∧
     (⌊(imgTall.shape0 : ℚ) * min ((1080 : ℚ) / imgTall.shape0) ((1920 : ℚ) / imgTall.shape1)⌋).toNat ≤ imgTall.shape0) := by
  have hsmall : imgTwo.shape0 ≤ 1080 ∧ imgTwo.shape1 ≤ 1920 := by decide
  have hs0 : imgTall.shape0 = 1 := rfl
  have hs1 : imgTall.shape1 = 1921 := by
    show (List.replicate 1921 (0 : Int)).length = 1921
    exact List.length_replicate 1921 0
  have hbig : ¬(imgTall.shape0 ≤ 1080 ∧ imgTall.shape1 ≤ 1920) := by omega
  have h0 : 0 < imgTall.shape0 := by omega
  have h1 : 0 < imgTall.shape1 := by omega
  exact ⟨hsmall, (resize_to_1080p_spec cvK imgTwo).1 hsmall, hbig, h0, h1,
    (resize_to_1080p_spec cvK imgTall).2 hbig h0 h1⟩

/-- numpy slicing with nonnegative in-range bounds l[y : y+h] is the
    pure drop/take crop. -/
theorem pySlice_nat {α : Type} (l : List α) (y h : Nat) (hyh : y + h ≤ l.length) :
    pySlice l (y : Int) ((y : Int) + (h : Int)) = (l.drop y).take h := by
  unfold pySlice
  simp only []
  have hb : ¬((y : Int) + (h : Int) < 0) := by omega
  have ha : ¬((y : Int) < 0) := by omega
  have hbL : (y : Int) + (h : Int) ≤ (l.length : Int) := by exact_mod_cast hyh
  have haL : (y : Int) ≤ (l.length : Int) := by omega
  rw [if_neg hb, if_neg ha, min_eq_left hbL, min_eq_left haL]
  have e1 : ((y : Int) + (h : Int)).toNat = y + h := by omega
  have e2 : ((y : Int)).toNat = y := by omega
  rw [e1, e2, List.drop_take]
  congr 1
  omega

/-- extract_portrait_from_image on a four-entry region, unfolded. -/
theorem extract_eq (x y w h : Int) (mc : PyFloat) (refs : List (String × Image)) (image : Image) :
    extract_portrait_from_image ⟨[x, y, w, h], mc, refs⟩ image =
      if (image.shape0 : Int) < y + h ∨ (image.shape1 : Int) < x + w then
        Except.error "Image dimensions too small for portrait extraction"
      else
        Except.ok ⟨(pySlice image.data y (y + h)).map (fun row => pySlice row x (x + w))⟩ := rfl

/-- Claim C7: for a configured region (x, y, w, h), extraction errors
    exactly when the source image is smaller than the region's
    bounding box in either axis; otherwise it returns exactly the pure
    crop image[y:y+h, x:x+w] — h rows of w pixels taken verbatim, no
    interpolation. -/
theorem extract_portrait_spec (x y w h : Nat) (mc : PyFloat)
    (refs : List (String × Image)) (image : Image) :
    ((∃ e, extract_portrait_from_image ⟨[(x : Int), (y : Int), (w : Int), (h : Int)], mc, refs⟩ image =
        Except.error e) ↔
      (image.shape0 < y + h ∨ image.shape1 < x + w)) ∧
    (ImageWF image → y + h ≤ image.shape0 → x + w ≤ image.shape1 →
      extract_portrait_from_image ⟨[(x : Int), (y : Int), (w : Int), (h : Int)], mc, refs⟩ image =
        Except.ok ⟨((image.data.drop y).take h).map (fun row => (row.drop x).take w)⟩ ∧
      (((image.data.drop y).take h).map (fun row => (row.drop x).take w)).length = h ∧
      (∀ row ∈ ((image.data.drop y).take h).map (fun row => (row.drop x).take w), row.length = w)) := by
  have heq := extract_eq (x : Int) (y : Int) (w : Int) (h : Int) mc refs image
  by_cases hc : image.shape0 < y + h ∨ image.shape1 < x + w
  · have hci : (image.shape0 : Int) < (y : Int) + (h : Int) ∨ (image.shape1 : Int) < (x : Int) + (w : Int) := by
      rcases hc with hc | hc
      · exact Or.inl (by exact_mod_cast hc)
      · exact Or.inr (by exact_mod_cast hc)
    rw [heq, if_pos hci]
    refine ⟨⟨fun _ => hc, fun _ => ⟨_, rfl⟩⟩, ?_⟩
    intro hwf hyh hxw
    exact absurd hc (by omega)
  · push_neg at hc
    obtain ⟨h1, h2⟩ := hc
    have hci : ¬((image.shape0 : Int) < (y : Int) + (h : Int) ∨ (image.shape1 : Int) < (x : Int) + (w : Int)) := by
      push_neg
      exact ⟨by exact_mod_cast h1, by exact_mod_cast h2⟩
    rw [heq, if_neg hci]
    constructor
    · constructor
      · rintro ⟨e, he⟩
        exact absurd he (by simp)
      · intro hcon
        exact absurd hcon (by omega)
    · intro hwf hyh hxw
      refine ⟨?_, ?_, ?_⟩
      · congr 1
        have houter : pySlice image.data (y : Int) ((y : Int) + (h : Int)) = (image.data.drop y).take h :=
          pySlice_nat image.data y h h1
        rw [houter]
        congr 1
        apply List.map_congr_left
        intro row hrow
        have hrl : row.length = image.shape1 :=
          hwf row (List.mem_of_mem_drop (List.mem_of_mem_take hrow))
        exact pySlice_nat row x w (by omega)
      · rw [List.length_map, List.length_take, List.length_drop]
        have hlen : image.shape0 = image.data.length := rfl
        omega
      · intro row hrow
        rw [List.mem_map] at hrow
        obtain ⟨row0, hrow0, rfl⟩ := hrow
        have hrl : row0.length = image.shape1 :=
          hwf row0 (List.mem_of_mem_drop (List.mem_of_mem_take hrow0))
        rw [List.length_take, List.length_drop]
        omega

/-- Claim C7 (witness): region (1, 0, 1, 2) applied to the 2x2 image
    succeeds and yields exactly the right column as a 2x1 crop. -/
theorem extract_portrait_spec_witness :
    ImageWF imgTwo ∧ 0 + 2 ≤ imgTwo.shape0 ∧ 1 + 1 ≤ imgTwo.shape1 ∧
    (extract_portrait_from_image ⟨[(1 : Int), (0 : Int), (1 : Int), (2 : Int)], PyFloat.finite 0, []⟩ imgTwo =
       Except.ok ⟨((imgTwo.data.drop 0).take 2).map (fun row => (row.drop 1).take 1)⟩ ∧
     (((imgTwo.data.drop 0).take 2).map (fun row => (row.drop 1).take 1)).length = 2 ∧
     (∀ row ∈ ((imgTwo.data.drop 0).take 2).map (fun row => (row.drop 1).take 1), row.length = 1)) := by
  have hwf : ImageWF imgTwo := by
    intro row hrow
    simp [imgTwo] at hrow
    rcases hrow with rfl | rfl <;> rfl
  have ha : 0 + 2 ≤ imgTwo.shape0 := by decide
  have hb : 1 + 1 ≤ imgTwo.shape1 := by decide
  exact ⟨hwf, ha, hb, (extract_portrait_spec 1 0 1 2 (PyFloat.finite 0) [] imgTwo).2 hwf ha hb⟩
